import Mathlib

/-!
Verification development for the synapse-clinical-ai case/conflict
lifecycle and persistence layer.

Strings are modelled as lists of characters (`Str`), so that the global
single-character replacements performed by the sanitizer are structurally
recursive and fully computable.  The browser's `localStorage` is modelled
as an explicit value of type `List Case` threaded through the
`storageService` operations; the React component state of `App` is
modelled as an explicit `AppState` record threaded through the event
handlers.  `Date.now()` and `crypto.randomUUID()` are modelled as
parameters supplied by the environment.
-/

/-- Character lists standing for JavaScript strings. -/
abbrev Str := List Char

/-- Coerce a Lean string literal to the `Str` model. -/
def str (s : String) : Str := s.data

/-- The double-quote character (code 34), written by code point to keep
the development free of quote-heavy character literals. -/
def dquote : Char := Char.ofNat 34

/-- The single-quote character (code 39). -/
def squote : Char := Char.ofNat 39

/-- Global replacement of one character by a string, as performed by
`input.replace(/c/g, repl)` in JavaScript for a single-character
pattern `c`. -/
def replaceAll (c : Char) (repl : Str) : Str → Str
  | [] => []
  | ch :: rest => (if ch = c then repl else [ch]) ++ replaceAll c repl rest

/-- `sanitizeInput` from `securityService.ts`: HTML-entity encoding of
the five XSS-relevant characters, applied as five sequential global
replacements (ampersand first), with the JavaScript falsy guard
`if (!input) return ""` for the empty string. -/
def sanitizeInput (input : Str) : Str :=
  if input = [] then []
  else
    replaceAll squote (str "&#039;")
      (replaceAll dquote (str "&quot;")
        (replaceAll '>' (str "&gt;")
          (replaceAll '<' (str "&lt;")
            (replaceAll '&' (str "&amp;") input))))

/-- `PatientDetails` from `types.ts`: `id` is required, the remaining
fields are optional. -/
structure PatientDetails where
  id : Str
  name : Option Str
  age : Option Str
  location : Option Str
  encounterDate : Option Str
deriving DecidableEq, Repr

/-- The `type` discriminator of a `Note`. -/
inductive NoteType where
  | text
  | image
  | audio
deriving DecidableEq, Repr

/-- The `status` discriminator of a `Note`. -/
inductive NoteStatus where
  | processing
  | ready
  | error
deriving DecidableEq, Repr

/-- `Note` from `types.ts`. -/
structure Note where
  id : Str
  type : NoteType
  content : Str
  originalFile : Option Str
  mimeType : Option Str
  label : Str
  timestamp : Nat
  status : NoteStatus
  confidence : Option Nat
deriving DecidableEq, Repr

/-- `Severity` from `types.ts`. -/
inductive Severity where
  | HIGH
  | MEDIUM
  | LOW
deriving DecidableEq, Repr

/-- `ConfidenceLevel` from `types.ts`. -/
inductive ConfidenceLevel where
  | HIGH
  | MEDIUM
  | LOW
deriving DecidableEq, Repr

/-- One element of `Conflict.excerpts`. -/
structure Excerpt where
  source_id : Str
  text : Str
deriving DecidableEq, Repr

/-- `Conflict` from `types.ts`. -/
structure Conflict where
  id : Str
  description : Str
  severity : Severity
  source_ids : List Str
  reasoning : Str
  why_it_matters : Str
  confidence : ConfidenceLevel
  excerpts : List Excerpt
  resolved_text : Option Str
deriving DecidableEq, Repr

/-- The `category` discriminator of `MissingInfo`. -/
inductive MissingCategory where
  | allergies
  | activeMedications
  | vitalsTrends
  | pendingTests
  | followUpActions
  | codeStatus
  | other
deriving DecidableEq, Repr

/-- `MissingInfo` from `types.ts`. -/
structure MissingInfo where
  id : Str
  category : MissingCategory
  description : Str
  importance : Severity
  source_ids : Option (List Str)
  why_it_matters : Option Str
  suggested_questions : Option (List Str)
deriving DecidableEq, Repr

/-- The four-valued severity of a `TimelineEvent`. -/
inductive TimelineSeverity where
  | HIGH
  | MEDIUM
  | LOW
  | NEUTRAL
deriving DecidableEq, Repr

/-- `TimelineEvent` from `types.ts`. -/
structure TimelineEvent where
  time : Str
  description : Str
  source_id : Str
  is_conflict : Bool
  severity : TimelineSeverity
deriving DecidableEq, Repr

/-- The `summary_stats` component of `AnalysisResult`. -/
structure SummaryStats where
  high : Nat
  medium : Nat
  low : Nat
deriving DecidableEq, Repr

/-- `AnalysisResult` from `types.ts`. -/
structure AnalysisResult where
  critical_conflicts : List Conflict
  potentially_missing_information : List MissingInfo
  patient_trajectory_summary : Str
  summary_stats : SummaryStats
  timeline_events : List TimelineEvent
  analysis_confidence : ConfidenceLevel
deriving DecidableEq, Repr

/-- `DismissalReason` from `types.ts`. -/
inductive DismissalReason where
  | NOT_RELEVANT
  | FALSE_POSITIVE
  | ADDRESSED
  | DOC_ERROR
  | RESOLVED
  | OTHER
deriving DecidableEq, Repr

/-- The display string of each `DismissalReason` enum value, used when
the reason is interpolated into a history detail line. -/
def reasonText : DismissalReason → Str
  | .NOT_RELEVANT => str "Not Clinically Relevant"
  | .FALSE_POSITIVE => str "False Positive"
  | .ADDRESSED => str "Already Addressed"
  | .DOC_ERROR => str "Documentation Error"
  | .RESOLVED => str "Resolved"
  | .OTHER => str "Other"

/-- `DismissalRecord` from `types.ts`. -/
structure DismissalRecord where
  conflictId : Str
  reason : DismissalReason
  customReason : Option Str
  note : Option Str
  resolutionSourceId : Option Str
  timestamp : Nat
deriving DecidableEq, Repr

/-- `CaseHistoryEvent` from `types.ts`. -/
structure CaseHistoryEvent where
  timestamp : Nat
  action : Str
  details : Option Str
deriving DecidableEq, Repr

/-- `Case` from `types.ts`.  The JavaScript object
`Record<string, DismissalRecord>` is modelled as an association list
with unique keys, in insertion order. -/
structure Case where
  id : Str
  name : Str
  patientDetails : PatientDetails
  notes : List Note
  result : Option AnalysisResult
  dismissedFlags : List (Str × DismissalRecord)
  timestamp : Nat
  history : List CaseHistoryEvent
deriving DecidableEq, Repr

/-- JavaScript `x || ""` for an optional string field. -/
def jsOrEmpty (o : Option Str) : Str := o.getD []

/-- JavaScript `x || d` for an optional string: the default is taken
when the field is absent or the empty string (falsy). -/
def jsOr (o : Option Str) (d : Str) : Str :=
  match o with
  | none => d
  | some s => if s = [] then d else s

namespace storageService

/-- `storageService.sanitizeCase`: deep sanitization of every free-text
field of a case; `result` and `dismissedFlags` pass through unchanged,
and `history` passes through the `c.history || []` guard (always the
stored list here, since the model has no absent field). -/
def sanitizeCase (c : Case) : Case :=
  { c with
    name := sanitizeInput c.name
    patientDetails :=
      { id := sanitizeInput c.patientDetails.id
        name := some (sanitizeInput (jsOrEmpty c.patientDetails.name))
        age := some (sanitizeInput (jsOrEmpty c.patientDetails.age))
        location := some (sanitizeInput (jsOrEmpty c.patientDetails.location))
        encounterDate := some (sanitizeInput (jsOrEmpty c.patientDetails.encounterDate)) }
    notes := c.notes.map (fun n =>
      { n with content := sanitizeInput n.content, label := sanitizeInput n.label })
    result := c.result
    dismissedFlags := c.dismissedFlags
    history := c.history }

/-- `storageService.loadCases`: parse the persisted collection.  The
persisted medium is modelled as the collection itself, so loading is
the identity; the deserialization-error branch (return `[]`) is not
reachable in the model. -/
def loadCases (db : List Case) : List Case := db

/-- `storageService.saveCase`: sanitize, prepend to the loaded
collection, persist the whole collection and return it. -/
def saveCase (db : List Case) (newCase : Case) : List Case :=
  sanitizeCase newCase :: loadCases db

/-- JavaScript `Array.prototype.findIndex`, returning `none` for -1. -/
def findIndex (p : α → Bool) : List α → Option Nat
  | [] => none
  | x :: xs => if p x then some 0 else (findIndex p xs).map (· + 1)

/-- `storageService.updateCase`: sanitize, locate by id in the loaded
collection, replace in place if found, otherwise fall back to the
prepend of `saveCase`. -/
def updateCase (db : List Case) (updatedCase : Case) : List Case :=
  let sanitizedCase := sanitizeCase updatedCase
  let existing := loadCases db
  match findIndex (fun c => c.id = updatedCase.id) existing with
  | some index => existing.set index sanitizedCase
  | none => sanitizedCase :: existing

/-- `storageService.deleteCase`: remove every entry with the given id,
persist and return the filtered collection. -/
def deleteCase (db : List Case) (id : Str) : List Case :=
  (loadCases db).filter (fun c => c.id ≠ id)

end storageService

-- Sanity checks on the sanitizer model.
example : sanitizeInput (str "&") = str "&amp;" := by decide
example : sanitizeInput (str "<b>") = str "&lt;b&gt;" := by decide
example : sanitizeInput (sanitizeInput (str "&")) = str "&amp;amp;" := by decide

/-- `MAX_NOTES` from `constants.ts`. -/
def MAX_NOTES : Nat := 10

/-- JavaScript object update `{...prev, [k]: v}` on an association list
with unique keys: the existing entry for `k` is overwritten in place,
a new key is appended at the end. -/
def jsInsert (k : Str) (v : DismissalRecord) :
    List (Str × DismissalRecord) → List (Str × DismissalRecord)
  | [] => [(k, v)]
  | p :: rest => if p.1 = k then (k, v) :: rest else p :: jsInsert k v rest

/-- JavaScript `delete next[k]` on an association list: the entry for
`k`, if any, is removed; deleting an absent key is a no-op. -/
def jsDelete (k : Str) :
    List (Str × DismissalRecord) → List (Str × DismissalRecord)
  | [] => []
  | p :: rest => if p.1 = k then jsDelete k rest else p :: jsDelete k rest

/-- Lookup `m[k]` on the association-list model of
`Record<string, DismissalRecord>` (`undefined` is `none`). -/
def lookupFlag (m : List (Str × DismissalRecord)) (k : Str) :
    Option DismissalRecord :=
  match m with
  | [] => none
  | p :: rest => if p.1 = k then some p.2 else lookupFlag rest k

/-- The display letter of a note type, as interpolated into the
`NOTE_ADDED` history detail line (`Type: ${note.type}`). -/
def noteTypeText : NoteType → Str
  | .text => str "text"
  | .image => str "image"
  | .audio => str "audio"

/-- The React component state of `App` that the specified core touches,
together with the persisted collection `db` standing for the
`localStorage` content behind `storageService`. -/
structure AppState where
  patientDetails : PatientDetails
  notes : List Note
  result : Option AnalysisResult
  dismissedFlags : List (Str × DismissalRecord)
  hasUnsavedChanges : Bool
  cases : List Case
  currentCaseId : Option Str
  currentCaseHistory : List CaseHistoryEvent
  viewSourceId : Option Str
  isEditingSource : Bool
  editSourceContent : Str
  historyStack : List Str
  historyStep : Nat
  db : List Case
deriving DecidableEq, Repr

namespace App

/-- `App.logHistory`: stamp an event with the current time and prepend
it to the case history. -/
def logHistory (now : Nat) (action : Str) (details : Option Str)
    (h : List CaseHistoryEvent) : List CaseHistoryEvent :=
  ({ timestamp := now, action := action, details := details } : CaseHistoryEvent) :: h

/-- `App.handleAddNote`: reject when the note list already holds
`MAX_NOTES` entries; otherwise append the note, invalidate the analysis
result, mark unsaved changes and log a `NOTE_ADDED` event. -/
def handleAddNote (s : AppState) (note : Note) (now : Nat) : AppState :=
  if MAX_NOTES ≤ s.notes.length then s
  else
    { s with
      notes := s.notes ++ [note]
      result := none
      hasUnsavedChanges := true
      currentCaseHistory := logHistory now (str "NOTE_ADDED")
        (some (str "Type: " ++ noteTypeText note.type ++ str ", Label: " ++ note.label))
        s.currentCaseHistory }

/-- `App.handleDismissFlag`: insert or overwrite the dismissal record
under its conflict id, mark unsaved changes and log `FLAG_DISMISSED`. -/
def handleDismissFlag (s : AppState) (rec : DismissalRecord) (now : Nat) : AppState :=
  { s with
    dismissedFlags := jsInsert rec.conflictId rec s.dismissedFlags
    hasUnsavedChanges := true
    currentCaseHistory := logHistory now (str "FLAG_DISMISSED")
      (some (str "Reason: " ++ reasonText rec.reason)) s.currentCaseHistory }

/-- `App.handleRestoreFlag`: delete the entry for the given conflict id,
mark unsaved changes and log `FLAG_RESTORED`. -/
def handleRestoreFlag (s : AppState) (id : Str) (now : Nat) : AppState :=
  { s with
    dismissedFlags := jsDelete id s.dismissedFlags
    hasUnsavedChanges := true
    currentCaseHistory := logHistory now (str "FLAG_RESTORED") none s.currentCaseHistory }

/-- The `DismissalRecord` built by `ConflictCard.handleResolve`: reason
`RESOLVED`, the chosen source id, and a note crediting the chosen
source's label (JavaScript interpolates the literal text `undefined`
when no note with that id exists). -/
def resolveRecord (conflict : Conflict) (notes : List Note) (sourceId : Str)
    (now : Nat) : DismissalRecord :=
  { conflictId := conflict.id
    reason := DismissalReason.RESOLVED
    customReason := none
    note := some (str "Resolved: User selected source \"" ++
      (((notes.find? (fun n => n.id = sourceId)).map (·.label)).getD (str "undefined")) ++
      str "\" as correct.")
    resolutionSourceId := some sourceId
    timestamp := now }

/-- `ConflictCard.handleResolve` composed with its `onDismiss` callback
(`App.handleDismissFlag`): the mark-source-correct action. -/
def handleResolve (s : AppState) (conflict : Conflict) (sourceId : Str)
    (now : Nat) : AppState :=
  handleDismissFlag s (resolveRecord conflict s.notes sourceId now) now

/-- `App.handleViewSource`: open the source viewer and initialize the
undo history with the note's current content. -/
def handleViewSource (s : AppState) (id : Str) : AppState :=
  let content := (((s.notes.find? (fun n => n.id = id)).map (·.content)).getD [])
  { s with
    viewSourceId := some id
    isEditingSource := false
    editSourceContent := content
    historyStack := [content]
    historyStep := 0 }

/-- Clicking `Edit Content` in the source viewer
(`setIsEditingSource(true)`). -/
def startEditing (s : AppState) : AppState :=
  { s with isEditingSource := true }

/-- Typing into the source editor (`setEditSourceContent`). -/
def setEditContent (s : AppState) (content : Str) : AppState :=
  { s with editSourceContent := content }

/-- The body of the history debounce effect, run once the 800 ms
quiescence window elapses: when editing and the content differs from
the snapshot at the cursor, truncate the stack after the cursor,
append the content and move the cursor to the new last index. -/
def debounceFire (s : AppState) : AppState :=
  if s.isEditingSource ∧ s.historyStack.length > 0 ∧
      s.editSourceContent ≠ s.historyStack.getD s.historyStep [] then
    let newHistory := s.historyStack.take (s.historyStep + 1) ++ [s.editSourceContent]
    { s with historyStack := newHistory, historyStep := newHistory.length - 1 }
  else s

/-- `App.handleUndo`: decrement the cursor when positive and restore
the snapshot there; otherwise a no-op. -/
def handleUndo (s : AppState) : AppState :=
  if s.historyStep > 0 then
    let prevStep := s.historyStep - 1
    { s with historyStep := prevStep,
             editSourceContent := s.historyStack.getD prevStep [] }
  else s

/-- `App.handleRedo`: increment the cursor when it is not at the last
index and restore the snapshot there; otherwise a no-op. -/
def handleRedo (s : AppState) : AppState :=
  if s.historyStep < s.historyStack.length - 1 then
    let nextStep := s.historyStep + 1
    { s with historyStep := nextStep,
             editSourceContent := s.historyStack.getD nextStep [] }
  else s

/-- `App.saveCase`: guard on a present patient id; prepend a
`CASE_CREATED`/`CASE_UPDATED` event to the history before the store
call; assemble the case snapshot under the bound id or the freshly
generated `newId` (`crypto.randomUUID()`); call `updateCase` when an
id is bound, else `saveCase`, binding the new id afterwards. -/
def saveCase (s : AppState) (now : Nat) (newId : Str) : AppState :=
  if s.patientDetails.id = [] then s
  else
    let caseName := str "Case: " ++ s.patientDetails.id ++ str " (" ++
      jsOr s.patientDetails.encounterDate (str "No Date") ++ str ")"
    let saveEvent : CaseHistoryEvent :=
      { timestamp := now
        action := match s.currentCaseId with
          | some _ => str "CASE_UPDATED"
          | none => str "CASE_CREATED"
        details := some (str "Saved by user.") }
    let updatedHistory := saveEvent :: s.currentCaseHistory
    let caseData : Case :=
      { id := s.currentCaseId.getD newId
        name := caseName
        patientDetails := s.patientDetails
        notes := s.notes
        result := s.result
        dismissedFlags := s.dismissedFlags
        timestamp := now
        history := updatedHistory }
    match s.currentCaseId with
    | some _ =>
        let updatedCases := storageService.updateCase s.db caseData
        { s with
          db := updatedCases
          cases := updatedCases
          currentCaseHistory := updatedHistory
          hasUnsavedChanges := false }
    | none =>
        let updatedCases := storageService.saveCase s.db caseData
        { s with
          db := updatedCases
          cases := updatedCases
          currentCaseId := some caseData.id
          currentCaseHistory := updatedHistory
          hasUnsavedChanges := false }

/-- `App.deleteCase` (with the confirmation dialog accepted): remove
the record from storage; when the deleted id is the session's bound
identity, unbind it, mark the working copy as unsaved and log
`STORAGE_DELETED`; the in-memory working set is not touched. -/
def deleteCase (s : AppState) (id : Str) (now : Nat) : AppState :=
  let updated := storageService.deleteCase s.db id
  let s1 := { s with db := updated, cases := updated }
  if s1.currentCaseId = some id then
    { s1 with
      currentCaseId := none
      hasUnsavedChanges := true
      currentCaseHistory := logHistory now (str "STORAGE_DELETED")
        (some (str "Case deleted from DB but active in session.")) s1.currentCaseHistory }
  else s1

end App

/-- The stored audit sequence is ascending by timestamp (the ordering
the specification asserts for the underlying sequence). -/
def sortedAscTimestamps : List CaseHistoryEvent → Bool
  | [] => true
  | [_] => true
  | a :: b :: rest => a.timestamp ≤ b.timestamp && sortedAscTimestamps (b :: rest)

/-- The stored audit sequence is descending by timestamp (newest
first, the ordering the code actually produces by prepending). -/
def sortedDescTimestamps : List CaseHistoryEvent → Bool
  | [] => true
  | [_] => true
  | a :: b :: rest => b.timestamp ≤ a.timestamp && sortedDescTimestamps (b :: rest)

/-- A run of the audit log from the empty history: each entry
`(t, action, details)` is recorded with `App.logHistory`, earliest
entry first. -/
def runLog (entries : List (Nat × Str × Option Str)) : List CaseHistoryEvent :=
  entries.foldl (fun h e => App.logHistory e.1 e.2.1 e.2.2 h) []

/-- The clock values of a run never decrease, starting from `t0`
(`Date.now()` is monotone). -/
def timesNonDecreasing : Nat → List (Nat × Str × Option Str) → Bool
  | _, [] => true
  | t0, e :: rest => t0 ≤ e.1 && timesNonDecreasing e.1 rest

/-- A character is free of the five HTML-escaped characters. -/
def cleanChar (ch : Char) : Bool :=
  ch ≠ '&' && ch ≠ '<' && ch ≠ '>' && ch ≠ dquote && ch ≠ squote

/-- A patient-details value with every field blank. -/
def emptyPatient : PatientDetails :=
  { id := [], name := some [], age := some [], location := some [],
    encounterDate := some [] }

/-- The initial `App` component state: blank working set, no bound
case, empty storage. -/
def emptyApp : AppState :=
  { patientDetails := emptyPatient
    notes := []
    result := none
    dismissedFlags := []
    hasUnsavedChanges := false
    cases := []
    currentCaseId := none
    currentCaseHistory := []
    viewSourceId := none
    isEditingSource := false
    editSourceContent := []
    historyStack := []
    historyStep := 0
    db := [] }

/-- A concrete ready text note with content `A`. -/
def noteA : Note :=
  { id := str "n1", type := NoteType.text, content := str "A",
    originalFile := none, mimeType := none, label := str "Note 1",
    timestamp := 0, status := NoteStatus.ready, confidence := none }

/-- A concrete conflict between sources `n1` and `n2`. -/
def demoConflict : Conflict :=
  { id := str "c1", description := str "dose mismatch",
    severity := Severity.HIGH, source_ids := [str "n1", str "n2"],
    reasoning := str "doses differ", why_it_matters := str "double dosing",
    confidence := ConfidenceLevel.HIGH, excerpts := [], resolved_text := none }

/-- A concrete dismissal record whose conflict id is the empty string. -/
def emptyIdRecord : DismissalRecord :=
  { conflictId := [], reason := DismissalReason.OTHER, customReason := none,
    note := none, resolutionSourceId := none, timestamp := 3 }

/-- The source-editing session of the scenario in §8 of the
specification: view note `n1` (content `A`) and enter edit mode. -/
def editSession0 : AppState :=
  App.startEditing (App.handleViewSource { emptyApp with notes := [noteA] } (str "n1"))

/-- The session after typing `B` and letting the debounce fire. -/
def editSession1 : AppState := App.debounceFire (App.setEditContent editSession0 (str "B"))

/-- The session after further typing `C` and letting the debounce fire. -/
def editSession2 : AppState := App.debounceFire (App.setEditContent editSession1 (str "C"))

/-- An app state holding exactly `MAX_NOTES` notes. -/
def appWithTenNotes : AppState := { emptyApp with notes := List.replicate 10 noteA }

/-- A concrete persisted case with id `case1`. -/
def demoCase : Case :=
  { id := str "case1", name := str "Case: P1 (No Date)",
    patientDetails := { emptyPatient with id := str "P1" },
    notes := [noteA], result := none, dismissedFlags := [],
    timestamp := 0, history := [] }

/-- An app state whose session is bound to the persisted case `case1`. -/
def boundApp : AppState :=
  { emptyApp with
    patientDetails := { emptyPatient with id := str "P1" }
    notes := [noteA]
    currentCaseId := some (str "case1")
    cases := [demoCase]
    db := [demoCase] }

/-! ## Helper lemmas -/

theorem sanitizeCase_id (c : Case) : (storageService.sanitizeCase c).id = c.id := rfl

theorem replaceAll_of_not_mem (c : Char) (r : Str) (l : Str) (h : c ∉ l) :
    replaceAll c r l = l := by
  induction l with
  | nil => rfl
  | cons x xs ih =>
    simp only [List.mem_cons, not_or] at h
    rw [replaceAll, if_neg (fun hx => h.1 hx.symm), ih h.2]
    rfl

theorem findIndex_set_self {α} (p : α → Bool) (l : List α) (i : Nat) (a : α)
    (h : storageService.findIndex p l = some i) (ha : p a = true) :
    storageService.findIndex p (l.set i a) = some i := by
  induction l generalizing i with
  | nil => simp [storageService.findIndex] at h
  | cons x xs ih =>
    by_cases hx : p x = true
    · simp [storageService.findIndex, hx] at h
      subst h
      simp [List.set, storageService.findIndex, ha]
    · simp [storageService.findIndex, hx] at h
      obtain ⟨j, hj, hji⟩ := h
      subst hji
      simp [List.set, storageService.findIndex, hx, ih j hj]

theorem lookup_jsInsert (m : List (Str × DismissalRecord)) (k : Str) (v : DismissalRecord) :
    lookupFlag (jsInsert k v m) k = some v := by
  induction m with
  | nil => simp [jsInsert, lookupFlag]
  | cons p rest ih =>
    by_cases hp : p.1 = k
    · simp [jsInsert, hp, lookupFlag]
    · simp [jsInsert, hp, lookupFlag, ih]

theorem lookup_jsInsert_ne (m : List (Str × DismissalRecord)) (k0 k : Str)
    (v : DismissalRecord) (hk : k ≠ k0) :
    lookupFlag (jsInsert k0 v m) k = lookupFlag m k := by
  induction m with
  | nil => simp [jsInsert, lookupFlag, Ne.symm hk]
  | cons p rest ih =>
    by_cases hp : p.1 = k0
    · have hpk : p.1 ≠ k := fun h => hk (h.symm.trans hp)
      simp [jsInsert, hp, lookupFlag, Ne.symm hk, hpk]
    · by_cases hpk : p.1 = k
      · simp [jsInsert, hp, lookupFlag, hpk, hk]
      · simp [jsInsert, hp, lookupFlag, hpk, ih]

theorem lookup_jsDelete (m : List (Str × DismissalRecord)) (k : Str) :
    lookupFlag (jsDelete k m) k = none := by
  induction m with
  | nil => rfl
  | cons p rest ih =>
    by_cases hp : p.1 = k
    · simpa [jsDelete, hp] using ih
    · simp [jsDelete, hp, lookupFlag, ih]

theorem jsDelete_of_absent (m : List (Str × DismissalRecord)) (k : Str)
    (h : lookupFlag m k = none) : jsDelete k m = m := by
  induction m with
  | nil => rfl
  | cons p rest ih =>
    by_cases hp : p.1 = k
    · simp [lookupFlag, hp] at h
    · have h2 : lookupFlag rest k = none := by
        simpa [lookupFlag, hp] using h
      simp [jsDelete, hp, ih h2]

/-! ## Claim theorems -/

/-- C1: for every case `c` and every prior persisted collection,
`loadCases` after `saveCase c` yields exactly the prior collection with
`sanitizeCase c` prepended at index 0; `saveCase` never deduplicates by
id (the prior collection is returned intact even when it already holds
the same id). -/
theorem create_then_loadAll_prepends (db : List Case) (c : Case) :
    storageService.loadCases (storageService.saveCase db c) =
      storageService.sanitizeCase c :: db := rfl

/-- C2 counterexample: `sanitizeInput` is not idempotent — re-sanitizing
the sanitized form of an ampersand double-encodes it. -/
theorem sanitize_not_idempotent_cx :
    sanitizeInput (sanitizeInput (str "&")) ≠ sanitizeInput (str "&") := by decide

/-- C2 (amended): `sanitizeInput` is the identity on every string free
of the five escaped characters, so such already-safe strings are
unchanged by re-sanitization; idempotence does not hold for strings
containing a special character. -/
theorem sanitize_identity_on_clean (t : Str) (h : ∀ ch ∈ t, cleanChar ch = true) :
    sanitizeInput t = t ∧ sanitizeInput (sanitizeInput t) = sanitizeInput t := by
  have h1 : '&' ∉ t := fun hm => by simpa [cleanChar] using h _ hm
  have h2 : '<' ∉ t := fun hm => by simpa [cleanChar] using h _ hm
  have h3 : '>' ∉ t := fun hm => by simpa [cleanChar] using h _ hm
  have h4 : dquote ∉ t := fun hm => by simpa [cleanChar] using h _ hm
  have h5 : squote ∉ t := fun hm => by simpa [cleanChar] using h _ hm
  have hid : sanitizeInput t = t := by
    by_cases ht : t = []
    · simp [sanitizeInput, ht]
    · rw [sanitizeInput, if_neg ht, replaceAll_of_not_mem _ _ _ h1,
        replaceAll_of_not_mem _ _ _ h2, replaceAll_of_not_mem _ _ _ h3,
        replaceAll_of_not_mem _ _ _ h4, replaceAll_of_not_mem _ _ _ h5]
  exact ⟨hid, by rw [hid]; exact hid⟩

/-- C2 witness: the theorem applied to the clean string `ab`. -/
theorem sanitize_identity_on_clean_w :
    (∀ ch ∈ str "ab", cleanChar ch = true) ∧
      (sanitizeInput (str "ab") = str "ab" ∧
        sanitizeInput (sanitizeInput (str "ab")) = sanitizeInput (str "ab")) :=
  ⟨by decide, sanitize_identity_on_clean (str "ab") (by decide)⟩

/-- C3: `updateCase` is idempotent — calling it twice in succession
with the same case yields the same collection as calling it once. -/
theorem update_idempotent (db : List Case) (c : Case) :
    storageService.updateCase (storageService.updateCase db c) c =
      storageService.updateCase db c := by
  have hid : (storageService.sanitizeCase c).id = c.id := rfl
  cases h : storageService.findIndex (fun x => x.id = c.id) db with
  | none =>
    have h1 : storageService.updateCase db c =
        storageService.sanitizeCase c :: db := by
      unfold storageService.updateCase
      simp [storageService.loadCases, h]
    rw [h1]
    unfold storageService.updateCase
    simp [storageService.loadCases, storageService.findIndex, hid]
  | some i =>
    have h1 : storageService.updateCase db c =
        db.set i (storageService.sanitizeCase c) := by
      unfold storageService.updateCase
      simp [storageService.loadCases, h]
    have hfi : storageService.findIndex (fun x => decide (x.id = c.id))
        (db.set i (storageService.sanitizeCase c)) = some i :=
      findIndex_set_self _ db i _ h (by simp [hid])
    rw [h1]
    unfold storageService.updateCase
    simp [storageService.loadCases, hfi, List.set_set]

/-- C4 counterexample: resolving conflict `c1` (sources `n1`, `n2`)
with the unlisted source id `n9` does not fail — it still mutates
`dismissedFlags`, because `handleResolve` performs no reference check. -/
theorem resolve_unlisted_id_cx :
    (App.handleResolve emptyApp demoConflict (str "n9") 5).dismissedFlags ≠
      emptyApp.dismissedFlags := by decide

/-- C4 (amended): resolving via the mark-source-correct action with any
source id — listed among the conflict's `source_ids` or not — inserts a
`DismissalRecord` keyed by the conflict id with reason `RESOLVED` and
`resolutionSourceId` equal to that id; no `InvalidReference` failure
path exists. -/
theorem resolve_inserts_resolved (s : AppState) (conflict : Conflict)
    (sourceId : Str) (now : Nat) :
    lookupFlag (App.handleResolve s conflict sourceId now).dismissedFlags conflict.id =
      some (App.resolveRecord conflict s.notes sourceId now) ∧
    (App.resolveRecord conflict s.notes sourceId now).reason = DismissalReason.RESOLVED ∧
    (App.resolveRecord conflict s.notes sourceId now).resolutionSourceId = some sourceId := by
  refine ⟨?_, rfl, rfl⟩
  simp [App.handleResolve, App.handleDismissFlag, App.resolveRecord, lookup_jsInsert]

/-- C5 counterexample: dismissing a record whose `conflictId` is the
empty string does not fail with a `ValidationError` — the mapping is
mutated (an entry keyed by the empty string appears). -/
theorem dismiss_empty_id_cx :
    (App.handleDismissFlag emptyApp emptyIdRecord 3).dismissedFlags ≠
      emptyApp.dismissedFlags := by decide

/-- C5 (amended): `handleDismissFlag` always inserts or overwrites the
entry keyed by `rec.conflictId` — including when that id is the empty
string, since no validation is performed — and leaves every other key
unchanged. -/
theorem dismiss_inserts_overwrites (s : AppState) (rec : DismissalRecord) (now : Nat) :
    lookupFlag (App.handleDismissFlag s rec now).dismissedFlags rec.conflictId =
      some rec ∧
    (∀ k, k ≠ rec.conflictId →
      lookupFlag (App.handleDismissFlag s rec now).dismissedFlags k =
        lookupFlag s.dismissedFlags k) := by
  constructor
  · simp [App.handleDismissFlag, lookup_jsInsert]
  · intro k hk
    simp [App.handleDismissFlag, lookup_jsInsert_ne _ _ _ _ hk]

/-- C5 witness: the theorem applied to the empty-id record over the
empty mapping, with the distinct key `x`. -/
theorem dismiss_inserts_overwrites_w :
    lookupFlag (App.handleDismissFlag emptyApp emptyIdRecord 3).dismissedFlags
        emptyIdRecord.conflictId = some emptyIdRecord ∧
    (str "x") ≠ emptyIdRecord.conflictId ∧
    lookupFlag (App.handleDismissFlag emptyApp emptyIdRecord 3).dismissedFlags (str "x") =
      lookupFlag emptyApp.dismissedFlags (str "x") :=
  ⟨(dismiss_inserts_overwrites emptyApp emptyIdRecord 3).1, by decide,
    (dismiss_inserts_overwrites emptyApp emptyIdRecord 3).2 (str "x") (by decide)⟩

/-- C6: dismissing a record and then restoring its conflict id leaves
the mapping without that key, for every record and starting mapping;
and restoring an absent key leaves the mapping unchanged (a no-op, not
an error). -/
theorem dismiss_restore_round_trip (s : AppState) (rec : DismissalRecord)
    (now1 now2 : Nat) :
    lookupFlag (App.handleRestoreFlag (App.handleDismissFlag s rec now1)
        rec.conflictId now2).dismissedFlags rec.conflictId = none ∧
    (∀ id, lookupFlag s.dismissedFlags id = none →
      (App.handleRestoreFlag s id now2).dismissedFlags = s.dismissedFlags) := by
  constructor
  · simp [App.handleRestoreFlag, App.handleDismissFlag, lookup_jsDelete]
  · intro id hid
    simp [App.handleRestoreFlag, jsDelete_of_absent _ _ hid]

/-- C6 witness: the theorem applied to the record `c1` over the empty
mapping, and restore of the absent key `zzz`. -/
theorem dismiss_restore_round_trip_w :
    lookupFlag (App.handleRestoreFlag (App.handleDismissFlag emptyApp
        (App.resolveRecord demoConflict [] (str "n2") 4) 4)
        (App.resolveRecord demoConflict [] (str "n2") 4).conflictId 6).dismissedFlags
        (App.resolveRecord demoConflict [] (str "n2") 4).conflictId = none ∧
    lookupFlag emptyApp.dismissedFlags (str "zzz") = none ∧
    (App.handleRestoreFlag emptyApp (str "zzz") 6).dismissedFlags =
      emptyApp.dismissedFlags :=
  ⟨(dismiss_restore_round_trip emptyApp
      (App.resolveRecord demoConflict [] (str "n2") 4) 4 6).1, by decide,
    (dismiss_restore_round_trip emptyApp
      (App.resolveRecord demoConflict [] (str "n2") 4) 4 6).2 (str "zzz") (by decide)⟩

/-- C7: the linear undo-history scenario — from `init(A)`, `record(B)`,
`record(C)`: undo yields `B`, a second undo yields `A`, a third undo is
a no-op still at `A`; redo from there yields `B`; and recording `D`
after an undo truncates the stack to `[A, B, D]`, so `C` is unreachable
and a further redo at the new top is a no-op. -/
theorem edit_history_scenario :
    (App.handleUndo editSession2).editSourceContent = str "B" ∧
    (App.handleUndo (App.handleUndo editSession2)).editSourceContent = str "A" ∧
    App.handleUndo (App.handleUndo (App.handleUndo editSession2)) =
      App.handleUndo (App.handleUndo editSession2) ∧
    (App.handleUndo (App.handleUndo (App.handleUndo editSession2))).editSourceContent =
      str "A" ∧
    (App.handleRedo (App.handleUndo (App.handleUndo editSession2))).editSourceContent =
      str "B" ∧
    (App.debounceFire (App.setEditContent (App.handleUndo editSession2)
        (str "D"))).historyStack = [str "A", str "B", str "D"] ∧
    (str "C") ∉ (App.debounceFire (App.setEditContent (App.handleUndo editSession2)
        (str "D"))).historyStack ∧
    App.handleRedo (App.debounceFire (App.setEditContent (App.handleUndo editSession2)
        (str "D"))) =
      App.debounceFire (App.setEditContent (App.handleUndo editSession2) (str "D")) := by
  decide

/-- C8 counterexample: a history reachable from the empty history by
two recordings at increasing clock values is not sorted by ascending
timestamp — `logHistory` prepends, so the stored sequence is
newest-first. -/
theorem audit_ascending_cx :
    sortedAscTimestamps
      (runLog [(1, str "NOTE_ADDED", none), (2, str "NOTE_REMOVED", none)]) = false := by
  decide

/-- C8 (amended): the audit trail is append-only — each recording
prepends one event and preserves the existing sequence intact — and
every history reachable from the empty history under a non-decreasing
clock is sorted by descending timestamp (newest first); the stored
order is reverse chronological, the display order. -/
theorem audit_append_only_desc (entries : List (Nat × Str × Option Str))
    (h : timesNonDecreasing 0 entries = true) :
    sortedDescTimestamps (runLog entries) = true ∧
    (∀ t a d hist, App.logHistory t a d hist =
      ({ timestamp := t, action := a, details := d } : CaseHistoryEvent) :: hist) ∧
    (∀ e, runLog (entries ++ [e]) =
      ({ timestamp := e.1, action := e.2.1, details := e.2.2 } : CaseHistoryEvent) ::
        runLog entries) := by
  refine ⟨?_, fun t a d hist => rfl, fun e => ?_⟩
  · have aux : ∀ (es : List (Nat × Str × Option Str)) (t0 : Nat)
        (acc : List CaseHistoryEvent),
        timesNonDecreasing t0 es = true →
        sortedDescTimestamps acc = true →
        (∀ x ∈ acc, x.timestamp ≤ t0) →
        sortedDescTimestamps
          (es.foldl (fun h e => App.logHistory e.1 e.2.1 e.2.2 h) acc) = true := by
      intro es
      induction es with
      | nil => intro t0 acc _ hs _; simpa using hs
      | cons e rest ih =>
        intro t0 acc hts hs hb
        rw [timesNonDecreasing, Bool.and_eq_true] at hts
        have ht0 : t0 ≤ e.1 := by simpa using hts.1
        refine ih e.1 (App.logHistory e.1 e.2.1 e.2.2 acc) hts.2 ?_ ?_
        · cases acc with
          | nil => rfl
          | cons y ys =>
            have hy : y.timestamp ≤ e.1 :=
              le_trans (hb y (by simp)) ht0
            simpa [App.logHistory, sortedDescTimestamps, hy] using hs
        · intro x hx
          rcases List.mem_cons.mp hx with hx | hx
          · subst hx; rfl
          · exact le_trans (hb x hx) ht0
    exact aux entries 0 [] h rfl (by simp)
  · simp [runLog, List.foldl_append, App.logHistory]

/-- C8 witness: the amended theorem applied to a concrete two-entry
run with clock values 1 and 2. -/
theorem audit_append_only_desc_w :
    timesNonDecreasing 0 [(1, str "NOTE_ADDED", none), (2, str "NOTE_REMOVED", none)] =
      true ∧
    sortedDescTimestamps
      (runLog [(1, str "NOTE_ADDED", none), (2, str "NOTE_REMOVED", none)]) = true :=
  ⟨by decide,
    (audit_append_only_desc
      [(1, str "NOTE_ADDED", none), (2, str "NOTE_REMOVED", none)] (by decide)).1⟩

/-- C9: deleting the case bound to the session unbinds the identity and
removes the durable record while the in-memory working set (patient
details, notes, result, dismissal ledger) stays live and the session
becomes dirty; a subsequent save with a freshly generated id creates a
new record prepended under that id — the deleted id is not revived. -/
theorem delete_bound_then_save_creates (s : AppState) (did nid : Str)
    (now1 now2 : Nat)
    (hbound : s.currentCaseId = some did)
    (hpid : s.patientDetails.id ≠ [])
    (hfresh : nid ≠ did) :
    (App.deleteCase s did now1).currentCaseId = none ∧
    (App.deleteCase s did now1).notes = s.notes ∧
    (App.deleteCase s did now1).patientDetails = s.patientDetails ∧
    (App.deleteCase s did now1).result = s.result ∧
    (App.deleteCase s did now1).dismissedFlags = s.dismissedFlags ∧
    (App.deleteCase s did now1).hasUnsavedChanges = true ∧
    (∀ c ∈ (App.deleteCase s did now1).db, c.id ≠ did) ∧
    (App.saveCase (App.deleteCase s did now1) now2 nid).currentCaseId = some nid ∧
    ((App.saveCase (App.deleteCase s did now1) now2 nid).db.head?.map Case.id =
      some nid) ∧
    ((App.saveCase (App.deleteCase s did now1) now2 nid).db.tail =
      (App.deleteCase s did now1).db) ∧
    (∀ c ∈ (App.saveCase (App.deleteCase s did now1) now2 nid).db, c.id ≠ did) := by
  have hdb : (App.deleteCase s did now1).db =
      List.filter (fun c => decide (c.id ≠ did)) s.db := by
    simp [App.deleteCase, hbound, storageService.deleteCase, storageService.loadCases]
  have hdel : ∀ c ∈ (App.deleteCase s did now1).db, c.id ≠ did := by
    intro c hc
    rw [hdb] at hc
    simpa using (List.mem_filter.mp hc).2
  have hid1 : (App.deleteCase s did now1).currentCaseId = none := by
    simp [App.deleteCase, hbound]
  have hpd : (App.deleteCase s did now1).patientDetails = s.patientDetails := by
    simp [App.deleteCase, hbound]
  have hsave : (App.saveCase (App.deleteCase s did now1) now2 nid).currentCaseId =
      some nid ∧
      (App.saveCase (App.deleteCase s did now1) now2 nid).db.head?.map Case.id =
        some nid ∧
      (App.saveCase (App.deleteCase s did now1) now2 nid).db.tail =
        (App.deleteCase s did now1).db := by
    rw [App.saveCase, hpd, if_neg hpid, hid1]
    refine ⟨rfl, ?_, rfl⟩
    simp [storageService.saveCase, storageService.loadCases, sanitizeCase_id]
  refine ⟨hid1, by simp [App.deleteCase, hbound], hpd,
    by simp [App.deleteCase, hbound], by simp [App.deleteCase, hbound],
    by simp [App.deleteCase, hbound], hdel, hsave.1, hsave.2.1, ?_, ?_⟩
  · exact hsave.2.2
  · intro c hc
    cases hsdb : (App.saveCase (App.deleteCase s did now1) now2 nid).db with
    | nil => rw [hsdb] at hc; simp at hc
    | cons x xs =>
      have hx : x.id = nid := by
        have hh := hsave.2.1
        rw [hsdb] at hh
        simpa using hh
      have hxs : xs = (App.deleteCase s did now1).db := by
        have hh := hsave.2.2
        rw [hsdb] at hh
        simpa using hh
      rw [hsdb] at hc
      rcases List.mem_cons.mp hc with hcx | hcxs
      · subst hcx; rw [hx]; exact hfresh
      · exact hdel c (hxs ▸ hcxs)

/-- C10: adding a note is capped at `MAX_NOTES` — when the note list
already holds ten or more entries, `handleAddNote` is a complete no-op
(notes, analysis result, dirty flag and history all unchanged), and
note addition never grows a list of at most ten notes beyond ten. -/
theorem addNote_capped (s : AppState) (note : Note) (now : Nat) :
    (MAX_NOTES ≤ s.notes.length → App.handleAddNote s note now = s) ∧
    (s.notes.length ≤ MAX_NOTES →
      (App.handleAddNote s note now).notes.length ≤ MAX_NOTES) := by
  constructor
  · intro h
    simp [App.handleAddNote, h]
  · intro h
    by_cases hlen : MAX_NOTES ≤ s.notes.length
    · simp [App.handleAddNote, hlen, h]
    · simp only [App.handleAddNote, hlen, if_false, List.length_append,
        List.length_cons, List.length_nil]
      unfold MAX_NOTES at hlen ⊢
      omega

/-- C10 witness: the theorem applied to a state holding exactly ten
notes — adding another is a no-op and the list stays at ten. -/
theorem addNote_capped_w :
    (MAX_NOTES ≤ appWithTenNotes.notes.length ∧
      App.handleAddNote appWithTenNotes noteA 7 = appWithTenNotes) ∧
    (appWithTenNotes.notes.length ≤ MAX_NOTES ∧
      (App.handleAddNote appWithTenNotes noteA 7).notes.length ≤ MAX_NOTES) :=
  ⟨⟨by decide, (addNote_capped appWithTenNotes noteA 7).1 (by decide)⟩,
    ⟨by decide, (addNote_capped appWithTenNotes noteA 7).2 (by decide)⟩⟩

/-- C9 witness: the theorem applied to a session bound to `case1`,
deleting that case and saving again under the fresh id `u2`. -/
theorem delete_bound_then_save_creates_w :
    boundApp.currentCaseId = some (str "case1") ∧
    boundApp.patientDetails.id ≠ [] ∧
    (str "u2") ≠ (str "case1") ∧
    (App.deleteCase boundApp (str "case1") 1).currentCaseId = none ∧
    (App.saveCase (App.deleteCase boundApp (str "case1") 1) 2
        (str "u2")).currentCaseId = some (str "u2") :=
  ⟨by decide, by decide, by decide,
    (delete_bound_then_save_creates boundApp (str "case1") (str "u2") 1 2
      (by decide) (by decide) (by decide)).1,
    (delete_bound_then_save_creates boundApp (str "case1") (str "u2") 1 2
      (by decide) (by decide) (by decide)).2.2.2.2.2.2.2.1⟩
